import Mathlib

/-!
# Verification of the RandyGuineaPigs simulation core

Shallow embedding of `src/RandyGuineaPigs.py` (functions `simulate_matings`
and `run_simulations`) and proofs of the specification claims about them.

Modelling choices:
* The global random source (`random.randint` / `random.random` drawing from
  one process-wide generator) is modelled as an explicit stream
  `g : Nat → Nat × ℚ` together with a cursor into the stream.  Each primitive
  draw consumes exactly one stream element and advances the cursor by one:
  `random.randint(0, n_females - 1)` uses the `Nat` component of the element
  (reduced `% n_females`), `random.random()` uses the `ℚ` component.  Python
  floats in `[0, 1)` are modelled as rationals; none of the claims depends on
  floating-point rounding.
* Python's non-negative integer inputs are modelled as `Nat`; probabilities
  as `ℚ` (the code performs no validation, so arbitrary rationals are
  accepted, exactly as arbitrary floats are in the source).
* The `while` loop of `simulate_matings` can genuinely diverge (claim about
  zero success probability), so it is embedded with explicit fuel:
  `simulate_loop cfg g fuel s` runs at most `fuel` iterations and stops
  early as soon as the loop condition `len(knocked_up) <
  min(target_pregnancies, n_females)` becomes false.  Real termination of
  the Python loop within `fuel` iterations is equivalent to the loop
  condition being false in the resulting state.
* The Python dict `shag_stats` has the fixed key set `range(n_females)`
  (built by the comprehension at lines 28–31 and only mutated at existing
  keys afterwards); it is modelled as a `List Counters` of length
  `n_females`, position `i` holding the counters of female `i`, and the
  returned dict as the association list over `List.range n_females` in
  insertion (= key) order.
* The state additionally records the list of selected females (`trace`), a
  ghost field used only to state which females were ever selected; it does
  not influence the computation.
-/

/-- Per-female counters: the value part of one `shag_stats` entry
(`{'total': …, 'while_pregnant': …, 'while_unpregnant': …}`). -/
structure Counters where
  total : Nat
  while_pregnant : Nat
  while_unpregnant : Nat
deriving DecidableEq

/-- The initial counters `{'total': 0, 'while_pregnant': 0, 'while_unpregnant': 0}`. -/
def Counters.init : Counters := ⟨0, 0, 0⟩

/-- The arguments of `simulate_matings` (the Run Configuration). -/
structure Config where
  n_females : Nat
  target_pregnancies : Nat
  pregnancy_chance : ℚ
  pregnant_chance : ℚ
deriving DecidableEq

/-- The mutable state of `simulate_matings`: the set `knocked_up`, the dict
`shag_stats` (as a positional list), a ghost trace of selected females, and
the cursor into the random stream. -/
structure SimState where
  knocked_up : Finset Nat
  shag_stats : List Counters
  trace : List Nat
  cursor : Nat
deriving DecidableEq

/-- State at the top of `simulate_matings`: `knocked_up = set()` and
`shag_stats = {sow: {'total': 0, …} for sow in range(n_females)}`. -/
def initState (cfg : Config) (cursor : Nat) : SimState :=
  ⟨∅, List.replicate cfg.n_females Counters.init, [], cursor⟩

/-- Update the counters of the selected female for one trial: `total += 1`
and, depending on `already_preggers`, `while_pregnant += 1` or
`while_unpregnant += 1` (lines 38–42 of the source). -/
def bump (c : Counters) (already_preggers : Bool) : Counters :=
  ⟨c.total + 1,
   c.while_pregnant + (if already_preggers then 1 else 0),
   c.while_unpregnant + (if already_preggers then 0 else 1)⟩

/-- Dict update `shag_stats[i] = f shag_stats[i]` on the positional-list
model (out-of-range `i` is never reached when `i < n_females`). -/
def updAt (l : List Counters) (i : Nat) (f : Counters → Counters) : List Counters :=
  l.set i (f (l.getD i Counters.init))

/-- One iteration of the `while` body of `simulate_matings` (lines 34–45):
draw `lucky_sow = random.randint(0, n_females - 1)`, compute
`already_preggers` and `conception_odds`, update the counters, and — only
when not already pregnant, by short-circuit of
`not already_preggers and random.random() < conception_odds` — consume one
further draw and possibly add `lucky_sow` to `knocked_up`. -/
def step (cfg : Config) (g : Nat → Nat × ℚ) (s : SimState) : SimState :=
  let lucky_sow := (g s.cursor).1 % cfg.n_females
  let already_preggers := lucky_sow ∈ s.knocked_up
  let conception_odds := if already_preggers then cfg.pregnant_chance else cfg.pregnancy_chance
  let stats' := updAt s.shag_stats lucky_sow (fun c => bump c (decide already_preggers))
  if already_preggers then
    ⟨s.knocked_up, stats', s.trace ++ [lucky_sow], s.cursor + 1⟩
  else if (g (s.cursor + 1)).2 < conception_odds then
    ⟨insert lucky_sow s.knocked_up, stats', s.trace ++ [lucky_sow], s.cursor + 2⟩
  else
    ⟨s.knocked_up, stats', s.trace ++ [lucky_sow], s.cursor + 2⟩

/-- The `while len(knocked_up) < min(target_pregnancies, n_females)` loop,
with fuel: runs at most `fuel` iterations, stopping as soon as the loop
condition is false.  The Python loop terminates within `fuel` iterations
iff the condition is false in the resulting state. -/
def simulate_loop (cfg : Config) (g : Nat → Nat × ℚ) : Nat → SimState → SimState
  | 0, s => s
  | fuel + 1, s =>
    if s.knocked_up.card < min cfg.target_pregnancies cfg.n_females then
      simulate_loop cfg g fuel (step cfg g s)
    else s

/-- The full state reached by `simulate_matings` started at stream position
`cursor`, given `fuel` loop iterations. -/
def simulate_state (cfg : Config) (g : Nat → Nat × ℚ) (fuel cursor : Nat) : SimState :=
  simulate_loop cfg g fuel (initState cfg cursor)

/-- The return value of `simulate_matings`: the dict `shag_stats` as an
association list over its keys `range(n_females)` in insertion order. -/
def simulate_matings (cfg : Config) (g : Nat → Nat × ℚ) (fuel cursor : Nat) :
    List (Nat × Counters) :=
  let s := simulate_state cfg g fuel cursor
  (List.range cfg.n_females).map (fun i => (i, s.shag_stats.getD i Counters.init))

/-- One row appended to `all_matings` in `run_simulations` (lines 76–82):
the simulation index, the female id, and her three counters. -/
structure BatchRecord where
  simulation : Nat
  female : Nat
  mating_count : Nat
  shagged_while_pregnant : Nat
  shagged_while_unpregnant : Nat
deriving DecidableEq

/-- The rows emitted for one run: `for sow_id, stats in session_log.items()`
in dict insertion order, i.e. females `0, …, n_females - 1` ascending. -/
def runRecords (sim : Nat) (cfg : Config) (s : SimState) : List BatchRecord :=
  (List.range cfg.n_females).map (fun i =>
    let c := s.shag_stats.getD i Counters.init
    ⟨sim, i, c.total, c.while_pregnant, c.while_unpregnant⟩)

/-- The `for sim in range(simulations)` loop of `run_simulations`, with
`remaining` runs still to do, the current run index `sim`, and the current
stream cursor (the global random source advances across runs). -/
def run_sims_aux (cfg : Config) (g : Nat → Nat × ℚ) (fuel : Nat) :
    Nat → Nat → Nat → List BatchRecord
  | 0, _, _ => []
  | remaining + 1, sim, cursor =>
    let s := simulate_loop cfg g fuel (initState cfg cursor)
    runRecords sim cfg s ++ run_sims_aux cfg g fuel remaining (sim + 1) s.cursor

/-- `run_simulations` (lines 50–84): run `simulate_matings` once per
simulation index `0, …, simulations - 1` and flatten the per-female rows
into one list (the DataFrame's rows in order). -/
def run_simulations (cfg : Config) (simulations : Nat) (g : Nat → Nat × ℚ)
    (fuel : Nat) : List BatchRecord :=
  run_sims_aux cfg g fuel simulations 0 0

/-! ## Basic lemmas about one loop iteration -/

/-- The value read back at an index other than the updated one is unchanged. -/
lemma updAt_getD_ne (l : List Counters) (i j : Nat) (f : Counters → Counters)
    (h : i ≠ j) : (updAt l j f).getD i Counters.init = l.getD i Counters.init := by
  simp [updAt, List.getD_eq_getElem?_getD, List.getElem?_set_ne (Ne.symm h)]

/-- The value read back at the updated index is the updated value. -/
lemma updAt_getD_self (l : List Counters) (j : Nat) (f : Counters → Counters)
    (hj : j < l.length) :
    (updAt l j f).getD j Counters.init = f (l.getD j Counters.init) := by
  simp only [updAt, List.getD_eq_getElem?_getD]
  rw [List.getElem?_set_self (by simpa using hj)]
  rfl

/-- Reading any position of the all-zero initial table yields zero counters. -/
lemma getD_replicate_init (n i : Nat) :
    (List.replicate n Counters.init).getD i Counters.init = Counters.init := by
  simp [List.getD_eq_getElem?_getD, List.getElem?_replicate]
  split <;> rfl

/-- Each trial appends the selected female to the ghost trace. -/
lemma step_trace (cfg : Config) (g : Nat → Nat × ℚ) (s : SimState) :
    (step cfg g s).trace = s.trace ++ [(g s.cursor).1 % cfg.n_females] := by
  by_cases h : (g s.cursor).1 % cfg.n_females ∈ s.knocked_up
  · simp [step, h]
  · by_cases h2 : (g (s.cursor + 1)).2 < cfg.pregnancy_chance <;> simp [step, h, h2]

/-- Each trial updates exactly the selected female's counters, via `bump`. -/
lemma step_shag_stats (cfg : Config) (g : Nat → Nat × ℚ) (s : SimState) :
    (step cfg g s).shag_stats =
      updAt s.shag_stats ((g s.cursor).1 % cfg.n_females)
        (fun c => bump c (decide ((g s.cursor).1 % cfg.n_females ∈ s.knocked_up))) := by
  by_cases h : (g s.cursor).1 % cfg.n_females ∈ s.knocked_up
  · simp [step, h]
  · by_cases h2 : (g (s.cursor + 1)).2 < cfg.pregnancy_chance <;> simp [step, h, h2]

/-- The set `knocked_up` grows by the selected female exactly when she was
not already pregnant and her conception roll (against
`pregnancy_chance`, the only probability ever rolled against) succeeds. -/
lemma step_knocked_up (cfg : Config) (g : Nat → Nat × ℚ) (s : SimState) :
    (step cfg g s).knocked_up =
      if (g s.cursor).1 % cfg.n_females ∉ s.knocked_up ∧
          (g (s.cursor + 1)).2 < cfg.pregnancy_chance then
        insert ((g s.cursor).1 % cfg.n_females) s.knocked_up
      else s.knocked_up := by
  by_cases h : (g s.cursor).1 % cfg.n_females ∈ s.knocked_up
  · simp [step, h]
  · by_cases h2 : (g (s.cursor + 1)).2 < cfg.pregnancy_chance <;> simp [step, h, h2]

/-- A trial does not change the size of the counter table. -/
lemma step_length (cfg : Config) (g : Nat → Nat × ℚ) (s : SimState) :
    (step cfg g s).shag_stats.length = s.shag_stats.length := by
  rw [step_shag_stats]; simp [updAt]

/-! ## The loop invariant machinery -/

/-- Any property preserved by `step` under the loop condition is preserved
by the whole loop. -/
lemma simulate_loop_inv (cfg : Config) (g : Nat → Nat × ℚ) {P : SimState → Prop}
    (hstep : ∀ s, s.knocked_up.card < min cfg.target_pregnancies cfg.n_females →
      P s → P (step cfg g s)) (fuel : Nat) :
    ∀ s, P s → P (simulate_loop cfg g fuel s) := by
  induction fuel with
  | zero => intro s h; simpa [simulate_loop] using h
  | succ n ih =>
    intro s h
    simp only [simulate_loop]
    split_ifs with hc
    · exact ih _ (hstep s hc h)
    · exact h

/-- Joint loop invariant: the counter table keeps its length, every counter
satisfies `total = while_pregnant + while_unpregnant`, the pregnant set
stays inside the population, and its size never exceeds
`min target_pregnancies n_females`. -/
lemma simulate_loop_invariants (cfg : Config) (g : Nat → Nat × ℚ) (fuel : Nat)
    (s : SimState)
    (h1 : s.shag_stats.length = cfg.n_females)
    (h2 : ∀ c ∈ s.shag_stats, c.total = c.while_pregnant + c.while_unpregnant)
    (h3 : s.knocked_up ⊆ Finset.range cfg.n_females)
    (h4 : s.knocked_up.card ≤ min cfg.target_pregnancies cfg.n_females) :
    (simulate_loop cfg g fuel s).shag_stats.length = cfg.n_females ∧
    (∀ c ∈ (simulate_loop cfg g fuel s).shag_stats,
      c.total = c.while_pregnant + c.while_unpregnant) ∧
    (simulate_loop cfg g fuel s).knocked_up ⊆ Finset.range cfg.n_females ∧
    (simulate_loop cfg g fuel s).knocked_up.card ≤
      min cfg.target_pregnancies cfg.n_females := by
  refine @simulate_loop_inv cfg g
    (fun s => s.shag_stats.length = cfg.n_females ∧
      (∀ c ∈ s.shag_stats, c.total = c.while_pregnant + c.while_unpregnant) ∧
      s.knocked_up ⊆ Finset.range cfg.n_females ∧
      s.knocked_up.card ≤ min cfg.target_pregnancies cfg.n_females)
    (fun s hc hP => ?_) fuel s ⟨h1, h2, h3, h4⟩
  obtain ⟨p1, p2, p3, p4⟩ := hP
  have hn : 0 < cfg.n_females :=
    Nat.lt_of_le_of_lt (Nat.zero_le _) (Nat.lt_of_lt_of_le hc (min_le_right _ _))
  have hlucky : (g s.cursor).1 % cfg.n_females < cfg.n_females := Nat.mod_lt _ hn
  refine ⟨?_, ?_, ?_, ?_⟩
  · rw [step_length]; exact p1
  · rw [step_shag_stats]
    intro c hc'
    rcases List.mem_or_eq_of_mem_set hc' with hmem | rfl
    · exact p2 c hmem
    · have hb := p2 (s.shag_stats.getD ((g s.cursor).1 % cfg.n_females) Counters.init)
        (by
          have hlt : (g s.cursor).1 % cfg.n_females < s.shag_stats.length := by
            rw [p1]; exact hlucky
          simp only [List.getD_eq_getElem?_getD, List.getElem?_eq_getElem hlt,
            Option.getD_some]
          exact List.getElem_mem hlt)
      simp only [List.getD_eq_getElem?_getD] at hb
      by_cases hm : (g s.cursor).1 % cfg.n_females ∈ s.knocked_up <;>
        simp [bump, hm] <;> omega
  · rw [step_knocked_up]
    split_ifs with h5
    · intro x hx
      rcases Finset.mem_insert.mp hx with rfl | hx
      · exact Finset.mem_range.mpr hlucky
      · exact p3 hx
    · exact p3
  · rw [step_knocked_up]
    split_ifs with h5
    · calc (insert ((g s.cursor).1 % cfg.n_females) s.knocked_up).card
          ≤ s.knocked_up.card + 1 := Finset.card_insert_le _ _
        _ ≤ min cfg.target_pregnancies cfg.n_females := hc
    · exact Nat.le_of_lt hc

/-- The invariants hold for the final state of `simulate_matings`. -/
lemma simulate_state_invariants (cfg : Config) (g : Nat → Nat × ℚ)
    (fuel cursor : Nat) :
    (simulate_state cfg g fuel cursor).shag_stats.length = cfg.n_females ∧
    (∀ c ∈ (simulate_state cfg g fuel cursor).shag_stats,
      c.total = c.while_pregnant + c.while_unpregnant) ∧
    (simulate_state cfg g fuel cursor).knocked_up ⊆ Finset.range cfg.n_females ∧
    (simulate_state cfg g fuel cursor).knocked_up.card ≤
      min cfg.target_pregnancies cfg.n_females := by
  apply simulate_loop_invariants
  · simp [initState]
  · intro c hc
    rw [List.eq_of_mem_replicate hc]
    rfl
  · simp [initState]
  · simp [initState]

/-- A female that does not appear in the final trace was never selected, and
her counters are exactly what they were at the start of the loop. -/
lemma simulate_loop_not_selected (cfg : Config) (g : Nat → Nat × ℚ) (i : Nat)
    (fuel : Nat) :
    ∀ s, i ∉ (simulate_loop cfg g fuel s).trace →
      (simulate_loop cfg g fuel s).shag_stats.getD i Counters.init =
        s.shag_stats.getD i Counters.init ∧ i ∉ s.trace := by
  induction fuel with
  | zero => intro s h; exact ⟨rfl, by simpa [simulate_loop] using h⟩
  | succ n ih =>
    intro s h
    simp only [simulate_loop] at h ⊢
    split_ifs at h ⊢ with hc
    · obtain ⟨h1, h2⟩ := ih _ h
      rw [step_trace] at h2
      simp only [List.mem_append, List.mem_singleton, not_or] at h2
      refine ⟨?_, h2.1⟩
      rw [h1, step_shag_stats, updAt_getD_ne _ _ _ _ h2.2]
    · exact ⟨rfl, h⟩

/-- When `min(target_pregnancies, n_females) = 0` the loop condition is false
from the start, so the loop returns its input state untouched. -/
lemma simulate_loop_of_min_zero (cfg : Config) (g : Nat → Nat × ℚ)
    (h : min cfg.target_pregnancies cfg.n_females = 0) (fuel : Nat) (s : SimState) :
    simulate_loop cfg g fuel s = s := by
  cases fuel with
  | zero => rfl
  | succ n => simp [simulate_loop, h]

/-- The states of the two runs of the loop that differ only in
`pregnant_chance` coincide: that probability is never rolled against. -/
lemma step_pregnant_chance_inert (n t : Nat) (p q q' : ℚ) (g : Nat → Nat × ℚ)
    (s : SimState) :
    step ⟨n, t, p, q⟩ g s = step ⟨n, t, p, q'⟩ g s := by
  by_cases h : (g s.cursor).1 % n ∈ s.knocked_up
  · simp [step, h]
  · by_cases h2 : (g (s.cursor + 1)).2 < p <;> simp [step, h, h2]

/-- Loop-level version of `step_pregnant_chance_inert`. -/
lemma simulate_loop_pregnant_chance_inert (n t : Nat) (p q q' : ℚ)
    (g : Nat → Nat × ℚ) (fuel : Nat) :
    ∀ s, simulate_loop ⟨n, t, p, q⟩ g fuel s = simulate_loop ⟨n, t, p, q'⟩ g fuel s := by
  induction fuel with
  | zero => intro s; rfl
  | succ m ih =>
    intro s
    simp only [simulate_loop]
    split_ifs with hc
    · rw [step_pregnant_chance_inert n t p q q' g s]; exact ih _
    · rfl

/-! ## Lemmas about the batch driver -/

/-- Each run contributes one record per female. -/
lemma runRecords_length (sim : Nat) (cfg : Config) (s : SimState) :
    (runRecords sim cfg s).length = cfg.n_females := by
  simp [runRecords]

/-- The batch driver emits `remaining * n_females` records. -/
lemma run_sims_aux_length (cfg : Config) (g : Nat → Nat × ℚ) (fuel : Nat) :
    ∀ remaining sim cursor,
      (run_sims_aux cfg g fuel remaining sim cursor).length =
        remaining * cfg.n_females := by
  intro remaining
  induction remaining with
  | zero => intro sim cursor; simp [run_sims_aux]
  | succ m ih =>
    intro sim cursor
    simp only [run_sims_aux, List.length_append, runRecords_length, ih]
    ring

/-- The (run index, female index) pairs of the batch, in emission order:
run indices ascend from `sim`, and female indices ascend within each run. -/
lemma run_sims_aux_pairs (cfg : Config) (g : Nat → Nat × ℚ) (fuel : Nat) :
    ∀ remaining sim cursor,
      (run_sims_aux cfg g fuel remaining sim cursor).map
          (fun r => (r.simulation, r.female)) =
        (List.range' sim remaining).flatMap
          (fun j => (List.range cfg.n_females).map (fun i => (j, i))) := by
  intro remaining
  induction remaining with
  | zero => intro sim cursor; rfl
  | succ m ih =>
    intro sim cursor
    rw [List.range'_succ]
    simp only [run_sims_aux, List.map_append, List.flatMap_cons, ih]
    congr 1
    simp [runRecords, List.map_map]

/-- Every record of the batch comes from the final state of one of the runs
(started at some cursor), with the female index drawn from `range n_females`. -/
lemma run_sims_aux_mem (cfg : Config) (g : Nat → Nat × ℚ) (fuel : Nat) :
    ∀ remaining sim cursor (r : BatchRecord),
      r ∈ run_sims_aux cfg g fuel remaining sim cursor →
        ∃ sim' cursor', r ∈ runRecords sim' cfg
          (simulate_loop cfg g fuel (initState cfg cursor')) := by
  intro remaining
  induction remaining with
  | zero => intro sim cursor r h; simp [run_sims_aux] at h
  | succ m ih =>
    intro sim cursor r h
    simp only [run_sims_aux, List.mem_append] at h
    rcases h with h | h
    · exact ⟨sim, cursor, h⟩
    · exact ih _ _ r h

/-- Any entry read from the final counter table satisfies
`total = while_pregnant + while_unpregnant` (in range it is a member of the
table, out of range it is the zero default). -/
lemma simulate_state_getD_sum (cfg : Config) (g : Nat → Nat × ℚ)
    (fuel cursor i : Nat) :
    ((simulate_state cfg g fuel cursor).shag_stats.getD i Counters.init).total =
      ((simulate_state cfg g fuel cursor).shag_stats.getD i Counters.init).while_pregnant +
      ((simulate_state cfg g fuel cursor).shag_stats.getD i Counters.init).while_unpregnant := by
  obtain ⟨hlen, hsum, -, -⟩ := simulate_state_invariants cfg g fuel cursor
  by_cases hi : i < cfg.n_females
  · have hlt : i < (simulate_state cfg g fuel cursor).shag_stats.length := by
      rw [hlen]; exact hi
    refine hsum _ ?_
    simp only [List.getD_eq_getElem?_getD, List.getElem?_eq_getElem hlt,
      Option.getD_some]
    exact List.getElem_mem hlt
  · have hge : (simulate_state cfg g fuel cursor).shag_stats.length ≤ i := by
      rw [hlen]; omega
    have : (simulate_state cfg g fuel cursor).shag_stats.getD i Counters.init =
        Counters.init := by
      simp [List.getD_eq_getElem?_getD, List.getElem?_eq_none hge]
    rw [this]
    rfl

/-- The keys of a `simulate_matings` result are exactly
`0, …, n_females - 1` in order, whatever the configuration. -/
lemma simulate_matings_map_fst (cfg : Config) (g : Nat → Nat × ℚ)
    (fuel cursor : Nat) :
    (simulate_matings cfg g fuel cursor).map Prod.fst =
      List.range cfg.n_females := by
  have h : (Prod.fst ∘ fun i : Nat =>
      (i, (simulate_state cfg g fuel cursor).shag_stats.getD i Counters.init)) = id := rfl
  simp only [simulate_matings, List.map_map, h, List.map_id]

/-- The zero draw stream used by the concrete witnesses. -/
def g0 : Nat → Nat × ℚ := fun _ => (0, 0)

/-- Witness configuration: one female, one target pregnancy, certain conception. -/
def cfgA : Config := ⟨1, 1, 1, 0⟩

/-- Witness configuration: two females, one target pregnancy, certain conception. -/
def cfgB : Config := ⟨2, 1, 1, 0⟩

/-- Witness configuration: zero conception chance (the non-terminating case). -/
def cfgC : Config := ⟨1, 1, 0, 0⟩

/-- Witness configuration: target of zero pregnancies. -/
def cfgD : Config := ⟨3, 0, 1, 0⟩

/-! ## The claims -/

/-- C1: for every valid Run Configuration (positive population and target,
probabilities in `[0,1]`, positive conception chance), when the `while`
loop of `simulate_matings` terminates — i.e. the loop condition
`len(knocked_up) < min(target_pregnancies, n_females)` is false in the
state reached within the given fuel — the number of females (indices in
`[0, n_females)`) in the final `knocked_up` set is exactly
`min(target_pregnancies, n_females)`. -/
theorem simulate_matings_success_count (cfg : Config) (g : Nat → Nat × ℚ)
    (fuel cursor : Nat)
    (hpop : 1 ≤ cfg.n_females) (htarget : 1 ≤ cfg.target_pregnancies)
    (hp0 : 0 ≤ cfg.pregnancy_chance) (hp1 : cfg.pregnancy_chance ≤ 1)
    (hq0 : 0 ≤ cfg.pregnant_chance) (hq1 : cfg.pregnant_chance ≤ 1)
    (hppos : 0 < cfg.pregnancy_chance)
    (hterm : min cfg.target_pregnancies cfg.n_females ≤
      (simulate_state cfg g fuel cursor).knocked_up.card) :
    ((Finset.range cfg.n_females).filter
        (fun i => i ∈ (simulate_state cfg g fuel cursor).knocked_up)).card =
      min cfg.target_pregnancies cfg.n_females := by
  obtain ⟨-, -, hsub, hcard⟩ := simulate_state_invariants cfg g fuel cursor
  have hfilter : (Finset.range cfg.n_females).filter
      (fun i => i ∈ (simulate_state cfg g fuel cursor).knocked_up) =
      (simulate_state cfg g fuel cursor).knocked_up := by
    rw [Finset.filter_mem_eq_inter]
    exact Finset.inter_eq_right.mpr hsub
  rw [hfilter]
  exact Nat.le_antisymm hcard hterm

/-- Witness for C1 at a concrete terminating run. -/
theorem simulate_matings_success_count_witness :
    1 ≤ cfgA.n_females ∧ 1 ≤ cfgA.target_pregnancies ∧
    0 < cfgA.pregnancy_chance ∧
    min cfgA.target_pregnancies cfgA.n_females ≤
      (simulate_state cfgA g0 1 0).knocked_up.card ∧
    ((Finset.range cfgA.n_females).filter
        (fun i => i ∈ (simulate_state cfgA g0 1 0).knocked_up)).card =
      min cfgA.target_pregnancies cfgA.n_females :=
  ⟨by decide, by decide, by decide, by decide,
    simulate_matings_success_count cfgA g0 1 0 (by decide) (by decide) (by decide)
      (by decide) (by decide) (by decide) (by decide) (by decide)⟩

/-- C2 counterexample: with the invalid probability
`pregnancy_chance = 2 ∉ [0,1]`, `simulate_matings` performs simulation work
(the trace records a trial) and both functions return complete, ordinary
results: there is no fail-fast configuration error. -/
theorem invalid_config_simulates_anyway :
    simulate_matings ⟨3, 1, 2, 0⟩ g0 1 0 =
      [(0, ⟨1, 0, 1⟩), (1, ⟨0, 0, 0⟩), (2, ⟨0, 0, 0⟩)] ∧
    (simulate_state ⟨3, 1, 2, 0⟩ g0 1 0).trace = [0] ∧
    run_simulations ⟨3, 1, 2, 0⟩ 1 g0 1 =
      [⟨0, 0, 1, 0, 1⟩, ⟨0, 1, 0, 0, 0⟩, ⟨0, 2, 0, 0, 0⟩] := by
  decide

/-- C2 amended: the code performs no configuration validation at all: for
every configuration, however invalid (any rational probability, population
or run count zero), `simulate_matings` and `run_simulations` return
ordinary, well-formed results — a full per-female table keyed by
`range n_females`, an empty batch for zero runs, and an empty table with no
work done for an empty population — rather than failing with an error. -/
theorem no_validation_results_returned (n t : Nat) (p q : ℚ)
    (g : Nat → Nat × ℚ) (fuel cursor : Nat) :
    (simulate_matings ⟨n, t, p, q⟩ g fuel cursor).map Prod.fst = List.range n ∧
    run_simulations ⟨n, t, p, q⟩ 0 g fuel = [] ∧
    simulate_matings ⟨0, t, p, q⟩ g fuel cursor = [] ∧
    simulate_state ⟨0, t, p, q⟩ g fuel cursor = initState ⟨0, t, p, q⟩ cursor := by
  refine ⟨simulate_matings_map_fst _ g fuel cursor, rfl, rfl, ?_⟩
  exact simulate_loop_of_min_zero _ g (Nat.min_zero t) fuel _

/-- C3: every per-female entry of a `simulate_matings` result and every
record of a `run_simulations` batch satisfies
`total = while_pregnant + while_unpregnant`. -/
theorem records_total_split (cfg : Config) (g : Nat → Nat × ℚ)
    (fuel cursor sims : Nat) (pr : Nat × Counters) (r : BatchRecord)
    (hpr : pr ∈ simulate_matings cfg g fuel cursor)
    (hr : r ∈ run_simulations cfg sims g fuel) :
    pr.2.total = pr.2.while_pregnant + pr.2.while_unpregnant ∧
    r.mating_count = r.shagged_while_pregnant + r.shagged_while_unpregnant := by
  constructor
  · simp only [simulate_matings, List.mem_map] at hpr
    obtain ⟨i, -, rfl⟩ := hpr
    exact simulate_state_getD_sum cfg g fuel cursor i
  · obtain ⟨sim', cursor', hmem⟩ := run_sims_aux_mem cfg g fuel sims 0 0 r hr
    simp only [runRecords, List.mem_map] at hmem
    obtain ⟨i, -, rfl⟩ := hmem
    exact simulate_state_getD_sum cfg g fuel cursor' i

/-- Witness for C3 at a concrete run and batch. -/
theorem records_total_split_witness :
    ((0 : Nat), (⟨1, 0, 1⟩ : Counters)) ∈ simulate_matings cfgA g0 1 0 ∧
    (⟨0, 0, 1, 0, 1⟩ : BatchRecord) ∈ run_simulations cfgA 1 g0 1 ∧
    ((1 : Nat) = 0 + 1 ∧ (1 : Nat) = 0 + 1) :=
  ⟨by decide, by decide,
    records_total_split cfgA g0 1 0 1 (0, ⟨1, 0, 1⟩) ⟨0, 0, 1, 0, 1⟩
      (by decide) (by decide)⟩

/-- C4: `run_simulations` returns exactly `simulations * n_females`
records, for every configuration. -/
theorem run_simulations_record_count (cfg : Config) (sims : Nat)
    (g : Nat → Nat × ℚ) (fuel : Nat) :
    (run_simulations cfg sims g fuel).length = sims * cfg.n_females :=
  run_sims_aux_length cfg g fuel sims 0 0

/-- C5: the batch records are emitted with run index ascending from 0 to
`simulations - 1` and, within each run, female index ascending from 0 to
`n_females - 1`. -/
theorem run_simulations_emission_order (cfg : Config) (sims : Nat)
    (g : Nat → Nat × ℚ) (fuel : Nat) :
    (run_simulations cfg sims g fuel).map (fun r => (r.simulation, r.female)) =
      (List.range sims).flatMap
        (fun j => (List.range cfg.n_females).map (fun i => (j, i))) := by
  simp only [run_simulations, run_sims_aux_pairs, List.range_eq_range']

/-- C6: in a single trial, the selected female's `while_pregnant` counter
is incremented exactly when she was already pregnant, her
`while_unpregnant` counter exactly when she was not (no other female's
counters change), and the pregnancy flip — the only way `knocked_up`
grows — happens only from the not-yet-pregnant branch, on a trial whose
increment therefore went to `while_unpregnant`. -/
theorem step_counter_discipline (cfg : Config) (g : Nat → Nat × ℚ)
    (s : SimState) (i : Nat)
    (hlen : s.shag_stats.length = cfg.n_females)
    (hpop : 1 ≤ cfg.n_females) :
    ((step cfg g s).shag_stats.getD i Counters.init).while_pregnant =
      (s.shag_stats.getD i Counters.init).while_pregnant +
        (if i = (g s.cursor).1 % cfg.n_females ∧ i ∈ s.knocked_up then 1 else 0) ∧
    ((step cfg g s).shag_stats.getD i Counters.init).while_unpregnant =
      (s.shag_stats.getD i Counters.init).while_unpregnant +
        (if i = (g s.cursor).1 % cfg.n_females ∧ i ∉ s.knocked_up then 1 else 0) ∧
    (step cfg g s).knocked_up =
      (if (g s.cursor).1 % cfg.n_females ∉ s.knocked_up ∧
          (g (s.cursor + 1)).2 < cfg.pregnancy_chance then
        insert ((g s.cursor).1 % cfg.n_females) s.knocked_up
      else s.knocked_up) := by
  have hlucky : (g s.cursor).1 % cfg.n_females < s.shag_stats.length := by
    rw [hlen]; exact Nat.mod_lt _ hpop
  refine ⟨?_, ?_, step_knocked_up cfg g s⟩
  · by_cases hi : i = (g s.cursor).1 % cfg.n_females
    · subst hi
      rw [step_shag_stats, updAt_getD_self _ _ _ hlucky]
      by_cases hm : (g s.cursor).1 % cfg.n_females ∈ s.knocked_up <;>
        simp [bump, hm]
    · rw [step_shag_stats, updAt_getD_ne _ _ _ _ hi]
      simp [hi]
  · by_cases hi : i = (g s.cursor).1 % cfg.n_females
    · subst hi
      rw [step_shag_stats, updAt_getD_self _ _ _ hlucky]
      by_cases hm : (g s.cursor).1 % cfg.n_females ∈ s.knocked_up <;>
        simp [bump, hm]
    · rw [step_shag_stats, updAt_getD_ne _ _ _ _ hi]
      simp [hi]

/-- Witness for C6 at a concrete trial. -/
theorem step_counter_discipline_witness :
    (initState cfgB 0).shag_stats.length = cfgB.n_females ∧
    1 ≤ cfgB.n_females ∧
    (((step cfgB g0 (initState cfgB 0)).shag_stats.getD 0 Counters.init).while_pregnant =
      ((initState cfgB 0).shag_stats.getD 0 Counters.init).while_pregnant +
        (if 0 = (g0 (initState cfgB 0).cursor).1 % cfgB.n_females ∧
            0 ∈ (initState cfgB 0).knocked_up then 1 else 0) ∧
    ((step cfgB g0 (initState cfgB 0)).shag_stats.getD 0 Counters.init).while_unpregnant =
      ((initState cfgB 0).shag_stats.getD 0 Counters.init).while_unpregnant +
        (if 0 = (g0 (initState cfgB 0).cursor).1 % cfgB.n_females ∧
            0 ∉ (initState cfgB 0).knocked_up then 1 else 0) ∧
    (step cfgB g0 (initState cfgB 0)).knocked_up =
      (if (g0 (initState cfgB 0).cursor).1 % cfgB.n_females ∉
            (initState cfgB 0).knocked_up ∧
          (g0 ((initState cfgB 0).cursor + 1)).2 < cfgB.pregnancy_chance then
        insert ((g0 (initState cfgB 0).cursor).1 % cfgB.n_females)
          (initState cfgB 0).knocked_up
      else (initState cfgB 0).knocked_up)) :=
  ⟨by decide, by decide,
    step_counter_discipline cfgB g0 (initState cfgB 0) 0 (by decide) (by decide)⟩

/-- C7: `simulate_matings` is behaviorally independent of
`pregnant_chance`: for two runs that differ only in that field and share
the draw stream, the entire final states coincide — same counters, same
pregnant set, same trace, and the same stream cursor, i.e. exactly the
same draws were consumed (no conception roll is performed, and no draw is
used for it, when the selected female is already pregnant). -/
theorem pregnant_chance_inert (n t : Nat) (p q q' : ℚ) (g : Nat → Nat × ℚ)
    (fuel cursor : Nat) :
    simulate_state ⟨n, t, p, q⟩ g fuel cursor =
      simulate_state ⟨n, t, p, q'⟩ g fuel cursor ∧
    simulate_matings ⟨n, t, p, q⟩ g fuel cursor =
      simulate_matings ⟨n, t, p, q'⟩ g fuel cursor := by
  have hstate : simulate_state ⟨n, t, p, q⟩ g fuel cursor =
      simulate_state ⟨n, t, p, q'⟩ g fuel cursor :=
    simulate_loop_pregnant_chance_inert n t p q q' g fuel _
  exact ⟨hstate, by simp [simulate_matings, hstate]⟩

/-- C8: with `pregnancy_chance = 0`, a positive target, a nonempty
population and conception rolls in `[0, 1)` (as `random.random` yields),
the loop never terminates: after any number of iterations no female is
pregnant and the loop condition is still true. -/
theorem zero_chance_never_terminates (cfg : Config) (g : Nat → Nat × ℚ)
    (cursor : Nat) (hp : cfg.pregnancy_chance = 0) (hpop : 1 ≤ cfg.n_females)
    (htarget : 1 ≤ cfg.target_pregnancies)
    (hg : ∀ k, 0 ≤ (g k).2) (fuel : Nat) :
    (simulate_state cfg g fuel cursor).knocked_up = ∅ ∧
    (simulate_state cfg g fuel cursor).knocked_up.card <
      min cfg.target_pregnancies cfg.n_females := by
  have hempty : (simulate_state cfg g fuel cursor).knocked_up = ∅ := by
    refine @simulate_loop_inv cfg g (fun s => s.knocked_up = ∅) ?_ fuel
      (initState cfg cursor) rfl
    intro s hc hP
    rw [step_knocked_up, hp, hP]
    split_ifs with h5
    · exact absurd h5.2 (not_lt.mpr (hg _))
    · rfl
  refine ⟨hempty, ?_⟩
  rw [hempty]
  simpa using lt_min htarget hpop

/-- Witness for C8 at a concrete configuration and any fuel value 3. -/
theorem zero_chance_never_terminates_witness :
    cfgC.pregnancy_chance = 0 ∧ 1 ≤ cfgC.n_females ∧
    1 ≤ cfgC.target_pregnancies ∧
    ((simulate_state cfgC g0 3 0).knocked_up = ∅ ∧
     (simulate_state cfgC g0 3 0).knocked_up.card <
       min cfgC.target_pregnancies cfgC.n_females) :=
  ⟨by decide, by decide, by decide,
    zero_chance_never_terminates cfgC g0 0 (by decide) (by decide) (by decide)
      (fun _ => le_refl 0) 3⟩

/-- C9: the result of `simulate_matings` is keyed by exactly the female
indices `0, …, n_females - 1`, and a female that was never selected in any
trial still appears, with all three counters zero. -/
theorem domain_and_unselected_zero (cfg : Config) (g : Nat → Nat × ℚ)
    (fuel cursor : Nat) (i : Nat) (hpop : 1 ≤ cfg.n_females)
    (hi : i < cfg.n_females)
    (hsel : i ∉ (simulate_state cfg g fuel cursor).trace) :
    (simulate_matings cfg g fuel cursor).map Prod.fst = List.range cfg.n_females ∧
    (simulate_state cfg g fuel cursor).shag_stats.getD i Counters.init =
      Counters.init ∧
    (i, Counters.init) ∈ simulate_matings cfg g fuel cursor := by
  have hzero : (simulate_state cfg g fuel cursor).shag_stats.getD i Counters.init =
      Counters.init := by
    have h := (simulate_loop_not_selected cfg g i fuel (initState cfg cursor) hsel).1
    rw [simulate_state, h]
    exact getD_replicate_init _ _
  refine ⟨simulate_matings_map_fst cfg g fuel cursor, hzero, ?_⟩
  simp only [simulate_matings, List.mem_map]
  exact ⟨i, List.mem_range.mpr hi, by rw [hzero]⟩

/-- Witness for C9: female 1 is never selected in a run that ends after
one trial on female 0. -/
theorem domain_and_unselected_zero_witness :
    1 ≤ cfgB.n_females ∧ 1 < cfgB.n_females ∧
    (1 : Nat) ∉ (simulate_state cfgB g0 1 0).trace ∧
    ((simulate_matings cfgB g0 1 0).map Prod.fst = List.range cfgB.n_females ∧
     (simulate_state cfgB g0 1 0).shag_stats.getD 1 Counters.init = Counters.init ∧
     ((1 : Nat), Counters.init) ∈ simulate_matings cfgB g0 1 0) :=
  ⟨by decide, by decide, by decide,
    domain_and_unselected_zero cfgB g0 1 0 1 (by decide) (by decide) (by decide)⟩

/-- C10: when `min(target_pregnancies, n_females) = 0` (zero target or
empty population), the loop body never runs: `simulate_matings` raises no
error, performs no trial (empty trace, cursor unmoved), leaves no female
pregnant, and returns one all-zero entry per female (none at all when the
population is empty). -/
theorem trivial_target_returns_immediately (cfg : Config) (g : Nat → Nat × ℚ)
    (fuel cursor : Nat)
    (h : min cfg.target_pregnancies cfg.n_females = 0) :
    simulate_state cfg g fuel cursor = initState cfg cursor ∧
    simulate_matings cfg g fuel cursor =
      (List.range cfg.n_females).map (fun i => (i, Counters.init)) ∧
    (simulate_state cfg g fuel cursor).trace = [] ∧
    (simulate_state cfg g fuel cursor).cursor = cursor ∧
    (simulate_state cfg g fuel cursor).knocked_up = ∅ := by
  have hs : simulate_state cfg g fuel cursor = initState cfg cursor :=
    simulate_loop_of_min_zero cfg g h fuel _
  refine ⟨hs, ?_, by rw [hs]; rfl, by rw [hs]; rfl, by rw [hs]; rfl⟩
  simp [simulate_matings, hs, initState, getD_replicate_init]

/-- Witness for C10 with a zero target. -/
theorem trivial_target_returns_immediately_witness :
    min cfgD.target_pregnancies cfgD.n_females = 0 ∧
    (simulate_state cfgD g0 5 2 = initState cfgD 2 ∧
     simulate_matings cfgD g0 5 2 =
       (List.range cfgD.n_females).map (fun i => (i, Counters.init)) ∧
     (simulate_state cfgD g0 5 2).trace = [] ∧
     (simulate_state cfgD g0 5 2).cursor = 2 ∧
     (simulate_state cfgD g0 5 2).knocked_up = ∅) :=
  ⟨by decide, trivial_target_returns_immediately cfgD g0 5 2 (by decide)⟩

-- sanity checks on concrete inputs
example :
    simulate_matings ⟨1, 1, 1, 0⟩ (fun _ => (0, 0)) 1 0 = [(0, ⟨1, 0, 1⟩)] := by
  decide

example :
    (simulate_state ⟨1, 1, 1, 0⟩ (fun _ => (0, 0)) 1 0).knocked_up = {0} := by
  decide

example :
    run_simulations ⟨2, 1, 1, 0⟩ 1 (fun _ => (0, 0)) 1 =
      [⟨0, 0, 1, 0, 1⟩, ⟨0, 1, 0, 0, 0⟩] := by
  decide
